import Mathlib

/-!
Verification of the connection-configuration subsystem
(`src/lib/connection/connection_config.js`).

The JavaScript value universe is embedded shallowly: a `JsValue` is
undefined, null, a boolean, a (finite) number modelled as a rational, a
string, an array, or a plain object given by its own-property list in
insertion order.  An options object is its field list.  The constructor
`ConnectionConfig(options, validateCredentials, qaMode, clientInfo)` is
translated statement by statement into `connectionConfig`, with each
`Errors.checkArgumentExists/checkArgumentValid` call rendered as an
early-return `if` producing the corresponding error code, exactly as the
throwing helpers behave.
-/

/-- A JavaScript runtime value.  Numbers are modelled as rationals (the
source performs no arithmetic beyond comparisons, and never produces
NaN/Infinity on the paths in scope).  Objects are own-property lists in
insertion order. -/
inductive JsValue where
  | undefined
  | null
  | bool (b : Bool)
  | num (q : ℚ)
  | str (s : String)
  | arr (elems : List JsValue)
  | obj (fields : List (String × JsValue))

/-- The own properties of a JavaScript object, in insertion order. -/
abbrev Fields := List (String × JsValue)

/-- Reading a property: the first binding of the key, `undefined` when the
key is absent (JavaScript property access). -/
def lookupField : Fields → String → Option JsValue
  | [], _ => none
  | (k', v) :: rest, k => if k' = k then some v else lookupField rest k

/-- Property read `options.name`: `undefined` when the key is absent. -/
def getField (fields : Fields) (k : String) : JsValue :=
  (lookupField fields k).getD .undefined

/-- Property write `options.name = v`: updates the existing binding in
place, or appends a new binding (JavaScript assignment semantics). -/
def setField : Fields → String → JsValue → Fields
  | [], k, v => [(k, v)]
  | (k', v') :: rest, k, v =>
      if k' = k then (k, v) :: rest else (k', v') :: setField rest k v

/-- Modelled from the spec: `Util.exists` from `lib/util.js` (not under
`src/`): a value exists when it is neither `undefined` nor `null`. -/
def jsExists : JsValue → Bool
  | .undefined => false
  | .null => false
  | _ => true

/-- Modelled from the spec: `Util.isString` from `lib/util.js`. -/
def isString : JsValue → Bool
  | .str _ => true
  | _ => false

/-- Modelled from the spec: `Util.isObject` from `lib/util.js` — true for
plain objects only (not arrays). -/
def isObject : JsValue → Bool
  | .obj _ => true
  | _ => false

/-- Modelled from the spec: `Util.isNumber` from `lib/util.js` — a finite
number. -/
def isNumber : JsValue → Bool
  | .num _ => true
  | _ => false

/-- Modelled from the spec: `Util.isBoolean` from `lib/util.js`. -/
def isBoolean : JsValue → Bool
  | .bool _ => true
  | _ => false

/-- Modelled from the spec: `Util.isArray` from `lib/util.js`. -/
def isArray : JsValue → Bool
  | .arr _ => true
  | _ => false

/-- JavaScript truthiness, used by `if (validateCredentials)`. -/
def jsTruthy : JsValue → Bool
  | .undefined => false
  | .null => false
  | .bool b => b
  | .num q => if q = 0 then false else true
  | .str s => if s = "" then false else true
  | .arr _ => true
  | .obj _ => true

/-- The string payload of a string value (used only after an `isString`
check has passed). -/
def jsToString : JsValue → String
  | .str s => s
  | _ => ""

/-- The numeric payload of a number value (used only after an `isNumber`
check has passed). -/
def jsToNum : JsValue → ℚ
  | .num q => q
  | _ => 0

/-- The element list of an array value (used only after an `isArray`
check has passed). -/
def arrElems : JsValue → List JsValue
  | .arr es => es
  | _ => []

/-- The field list of an object value (used only after an `isObject`
check has passed). -/
def objFields : JsValue → Fields
  | .obj fs => fs
  | _ => []

/-- The error codes raised by the constructor (from `lib/errors.js`
`codes`, as referenced in the source). -/
inductive ErrorCode where
  | ERR_CONN_CREATE_MISSING_OPTIONS
  | ERR_CONN_CREATE_INVALID_OPTIONS
  | ERR_CONN_CREATE_MISSING_USERNAME
  | ERR_CONN_CREATE_INVALID_USERNAME
  | ERR_CONN_CREATE_MISSING_PASSWORD
  | ERR_CONN_CREATE_INVALID_PASSWORD
  | ERR_CONN_CREATE_MISSING_ACCOUNT
  | ERR_CONN_CREATE_INVALID_ACCOUNT
  | ERR_CONN_CREATE_INVALID_REGION
  | ERR_CONN_CREATE_MISSING_ACCESS_URL
  | ERR_CONN_CREATE_INVALID_ACCESS_URL
  | ERR_CONN_CREATE_MISSING_PROXY_HOST
  | ERR_CONN_CREATE_INVALID_PROXY_HOST
  | ERR_CONN_CREATE_MISSING_PROXY_PORT
  | ERR_CONN_CREATE_INVALID_PROXY_PORT
  | ERR_CONN_CREATE_INVALID_WAREHOUSE
  | ERR_CONN_CREATE_INVALID_DATABASE
  | ERR_CONN_CREATE_INVALID_SCHEMA
  | ERR_CONN_CREATE_INVALID_ROLE
  | ERR_CONN_CREATE_INVALID_STREAM_RESULT
  | ERR_CONN_CREATE_INVALID_FETCH_AS_STRING
  | ERR_CONN_CREATE_INVALID_FETCH_AS_STRING_VALUES
deriving DecidableEq

/-- A construction failure: an argument error carrying its code
(`Errors.checkArgumentExists` / `Errors.checkArgumentValid`), or an
internal assertion failure (`Errors.assertInternal`). -/
inductive SfError where
  | argError (code : ErrorCode)
  | internalAssert
deriving DecidableEq

/-- The validator closures the parameter catalog draws from
(`Util.number.isPositiveInteger` / `isNonNegativeInteger` /
`isNonNegative`, bound in `createParameters`). -/
inductive ValidatorKind where
  | positiveInteger
  | nonNegativeInteger
  | nonNegativeNumber
deriving DecidableEq

/-- Modelled from the spec: the `Util.number` predicates from
`lib/util.js` (not under `src/`): positive integer, non-negative integer,
non-negative number; each is false on any non-number value. -/
def runValidator : ValidatorKind → JsValue → Bool
  | .positiveInteger, .num q => decide (q.den = 1) && decide (0 < q)
  | .nonNegativeInteger, .num q => decide (q.den = 1) && decide (0 ≤ q)
  | .nonNegativeNumber, .num q => decide (0 ≤ q)
  | _, _ => false

/-- One entry of the parameter catalog: name, default, the external
(overridable) flag — absent in the source literal meaning false — and the
validator. -/
structure Parameter where
  name : String
  defaultValue : JsValue
  external : Bool := false
  validate : ValidatorKind

/-- The catalog `createParameters()`: the static list of known parameters, in
declaration order. -/
def createParameters : List Parameter :=
  [ { name := "timeout", defaultValue := .num 90000, external := true,
      validate := .positiveInteger },
    { name := "resultPrefetch", defaultValue := .num 2, external := true,
      validate := .positiveInteger },
    { name := "resultStreamInterrupts", defaultValue := .num 3,
      validate := .positiveInteger },
    { name := "resultChunkCacheSize", defaultValue := .num 1,
      validate := .positiveInteger },
    { name := "resultProcessingBatchSize", defaultValue := .num 1000,
      validate := .positiveInteger },
    { name := "resultProcessingBatchDuration", defaultValue := .num 100,
      validate := .positiveInteger },
    { name := "rowStreamHighWaterMark", defaultValue := .num 10,
      validate := .positiveInteger },
    { name := "largeResultSetRetryMaxNumRetries", defaultValue := .num 10,
      validate := .nonNegativeInteger },
    { name := "largeResultSetRetryMaxSleepTime", defaultValue := .num 16,
      validate := .nonNegativeInteger },
    { name := "sfRetryMaxNumRetries", defaultValue := .num 1000,
      validate := .nonNegativeInteger },
    { name := "sfRetryStartingSleepTime", defaultValue := .num (1/4),
      validate := .nonNegativeNumber },
    { name := "sfRetryMaxSleepTime", defaultValue := .num 16,
      validate := .nonNegativeNumber } ]

/-- One pass of the override loop body for a single options property
`kv`: the parameter whose name matches is updated when it is external and
the value validates; all others keep their value. -/
def applyOption (ps : List (Parameter × JsValue)) (kv : String × JsValue) :
    List (Parameter × JsValue) :=
  ps.map fun pv =>
    if pv.1.name = kv.1 && pv.1.external && runValidator pv.1.validate kv.2
    then (pv.1, kv.2) else pv

/-- The parameter-resolution step (source lines 326–357): every parameter
starts at its default, then the loop over the options properties applies
qualifying overrides. -/
def resolveParameters (fields : Fields) : List (Parameter × JsValue) :=
  fields.foldl applyOption (createParameters.map fun p => (p, p.defaultValue))

/-- Proxy settings as assembled at source lines 134–138. -/
structure ProxySettings where
  host : String
  port : ℚ
deriving DecidableEq

/-- The constructed configuration object: the values closed over or
assigned onto `this` by the source constructor. -/
structure ConnectionConfig where
  qaMode : JsValue
  clientVersion : JsValue
  clientEnvironment : JsValue
  proxy : Option ProxySettings
  warehouse : JsValue
  database : JsValue
  schema : JsValue
  role : JsValue
  streamResult : JsValue
  fetchAsString : JsValue
  username : JsValue
  password : JsValue
  accessUrl : JsValue
  account : JsValue
  mapParameters : List (Parameter × JsValue)

/-- Mirrors `String.prototype.indexOf` restricted to a single character: the
index of the first occurrence, `none` when absent (the source's `-1`). -/
def strIndexOf (c : Char) : List Char → Option Nat
  | [] => none
  | x :: xs => if x = c then some 0 else (strIndexOf c xs).map (· + 1)

/-- The scan `options.account.indexOf('.')` followed by the guard
`dotPos > 0 && dotPos < options.account.length - 1` (source lines 66–67):
`some (before, after)` when the first dot is neither first nor last
character, `none` otherwise. -/
def accountDotSplit (a : String) : Option (String × String) :=
  let chars := a.toList
  match strIndexOf '.' chars with
  | some p =>
      if 0 < p ∧ p < chars.length - 1 then
        some (String.mk (chars.take p), String.mk (chars.drop (p + 1)))
      else none
  | none => none

/-- Source lines 64–71: split a dotted account into account and region
parameters (region assigned first, then account, both from the original
account string). -/
def splitAccount (fields : Fields) : Fields :=
  match accountDotSplit (jsToString (getField fields "account")) with
  | some (acct, reg) =>
      setField (setField fields "region" (.str reg)) "account" (.str acct)
  | none => fields

/-- Source lines 75–100: when no access url is given, derive it from the
account and the optional region (`us-west-2` contributes no subdomain and
is reset to the empty string; any other region contributes `.{region}`). -/
def deriveAccessUrl (fields : Fields) : Except SfError Fields :=
  if jsExists (getField fields "accessUrl") then .ok fields
  else
    if !jsExists (getField fields "region") then
      .ok (setField fields "accessUrl"
        (.str ("https://" ++ jsToString (getField fields "account") ++ "" ++
          ".snowflakecomputing.com")))
    else if !isString (getField fields "region") then
      .error (.argError .ERR_CONN_CREATE_INVALID_REGION)
    else if jsToString (getField fields "region") = "us-west-2" then
      let fields := setField fields "region" (.str "")
      .ok (setField fields "accessUrl"
        (.str ("https://" ++ jsToString (getField fields "account") ++ "" ++
          ".snowflakecomputing.com")))
    else
      .ok (setField fields "accessUrl"
        (.str ("https://" ++ jsToString (getField fields "account") ++
          ("." ++ jsToString (getField fields "region")) ++
          ".snowflakecomputing.com")))

/-- Source lines 38–101: the credential-validation block — username,
password and account checks, account splitting, access-url derivation —
skipped entirely when credential validation is off. -/
def identityStep (validate : Bool) (fields : Fields) : Except SfError Fields :=
  if !validate then .ok fields
  else if !jsExists (getField fields "username") then
    .error (.argError .ERR_CONN_CREATE_MISSING_USERNAME)
  else if !isString (getField fields "username") then
    .error (.argError .ERR_CONN_CREATE_INVALID_USERNAME)
  else if !jsExists (getField fields "password") then
    .error (.argError .ERR_CONN_CREATE_MISSING_PASSWORD)
  else if !isString (getField fields "password") then
    .error (.argError .ERR_CONN_CREATE_INVALID_PASSWORD)
  else if !jsExists (getField fields "account") then
    .error (.argError .ERR_CONN_CREATE_MISSING_ACCOUNT)
  else if !isString (getField fields "account") then
    .error (.argError .ERR_CONN_CREATE_INVALID_ACCOUNT)
  else deriveAccessUrl (splitAccount fields)

/-- Source lines 111–139: proxy resolution, active only in node and when
some proxy field is given. -/
def proxyStep (fields : Fields) (isNode : Bool) :
    Except SfError (Option ProxySettings) :=
  if isNode && (jsExists (getField fields "proxyHost") ||
      jsExists (getField fields "proxyPort")) then
    if !jsExists (getField fields "proxyHost") then
      .error (.argError .ERR_CONN_CREATE_MISSING_PROXY_HOST)
    else if !isString (getField fields "proxyHost") then
      .error (.argError .ERR_CONN_CREATE_INVALID_PROXY_HOST)
    else if !jsExists (getField fields "proxyPort") then
      .error (.argError .ERR_CONN_CREATE_MISSING_PROXY_PORT)
    else if !isNumber (getField fields "proxyPort") then
      .error (.argError .ERR_CONN_CREATE_INVALID_PROXY_PORT)
    else .ok (some { host := jsToString (getField fields "proxyHost"),
                     port := jsToNum (getField fields "proxyPort") })
  else .ok none

/-- Modelled from the spec: `NativeTypes.findInvalidValue` from
`lib/connection/result/data_types.js` (not under `src/`): the index of
the first element that is not a recognized native-type-name string
(case-insensitive member of the fixed set), `-1` when all are
recognized. -/
def findInvalidValue (elems : List JsValue) : Int :=
  match elems.findIdx? (fun v =>
      !(isString v &&
        ["STRING", "BOOLEAN", "NUMBER", "DATE", "JSON"].contains
          (jsToString v).toUpper)) with
  | some i => (i : Int)
  | none => -1

/-- Source lines 141–195: validation of the optional scalar fields
(warehouse, database, schema, role, streamResult, fetchAsString). -/
def optionalStep (fields : Fields) : Except SfError Unit :=
  if jsExists (getField fields "warehouse") &&
      !isString (getField fields "warehouse") then
    .error (.argError .ERR_CONN_CREATE_INVALID_WAREHOUSE)
  else if jsExists (getField fields "database") &&
      !isString (getField fields "database") then
    .error (.argError .ERR_CONN_CREATE_INVALID_DATABASE)
  else if jsExists (getField fields "schema") &&
      !isString (getField fields "schema") then
    .error (.argError .ERR_CONN_CREATE_INVALID_SCHEMA)
  else if jsExists (getField fields "role") &&
      !isString (getField fields "role") then
    .error (.argError .ERR_CONN_CREATE_INVALID_ROLE)
  else if jsExists (getField fields "streamResult") &&
      !isBoolean (getField fields "streamResult") then
    .error (.argError .ERR_CONN_CREATE_INVALID_STREAM_RESULT)
  else if jsExists (getField fields "fetchAsString") &&
      !isArray (getField fields "fetchAsString") then
    .error (.argError .ERR_CONN_CREATE_INVALID_FETCH_AS_STRING)
  else if jsExists (getField fields "fetchAsString") &&
      !(findInvalidValue (arrElems (getField fields "fetchAsString")) = -1) then
    .error (.argError .ERR_CONN_CREATE_INVALID_FETCH_AS_STRING_VALUES)
  else .ok ()

/-- Source lines 201–211: validation of the optional client-info
argument via internal assertions; yields the client version and
environment (`undefined` when no client info is given). -/
def clientInfoStep (clientInfo : JsValue) : Except SfError (JsValue × JsValue) :=
  if jsExists clientInfo then
    if !isObject clientInfo then .error .internalAssert
    else if !isString (getField (objFields clientInfo) "version") then
      .error .internalAssert
    else if !isObject (getField (objFields clientInfo) "environment") then
      .error .internalAssert
    else .ok (getField (objFields clientInfo) "version",
              getField (objFields clientInfo) "environment")
  else .ok (.undefined, .undefined)

/-- The constructor `ConnectionConfig(options, validateCredentials,
qaMode, clientInfo)`, with the runtime-context test `Util.isNode()`
passed as the explicit flag `isNode`.  Each throwing check is an
early-return error; on success the configuration holds exactly what the
source stores. -/
def connectionConfig (options validateCredentials qaMode clientInfo : JsValue)
    (isNode : Bool) : Except SfError ConnectionConfig :=
  let vc := if jsExists validateCredentials then validateCredentials
            else .bool true
  if !jsExists options then
    .error (.argError .ERR_CONN_CREATE_MISSING_OPTIONS)
  else if !isObject options then
    .error (.argError .ERR_CONN_CREATE_INVALID_OPTIONS)
  else
    match identityStep (jsTruthy vc) (objFields options) with
    | .error e => .error e
    | .ok fields =>
      if !jsExists (getField fields "accessUrl") then
        .error (.argError .ERR_CONN_CREATE_MISSING_ACCESS_URL)
      else if !isString (getField fields "accessUrl") then
        .error (.argError .ERR_CONN_CREATE_INVALID_ACCESS_URL)
      else
        match proxyStep fields isNode with
        | .error e => .error e
        | .ok proxy =>
          match optionalStep fields with
          | .error e => .error e
          | .ok _ =>
            match clientInfoStep clientInfo with
            | .error e => .error e
            | .ok (cver, cenv) =>
              .ok { qaMode := qaMode
                    clientVersion := cver
                    clientEnvironment := cenv
                    proxy := proxy
                    warehouse := getField fields "warehouse"
                    database := getField fields "database"
                    schema := getField fields "schema"
                    role := getField fields "role"
                    streamResult := getField fields "streamResult"
                    fetchAsString := getField fields "fetchAsString"
                    username := getField fields "username"
                    password := getField fields "password"
                    accessUrl := getField fields "accessUrl"
                    account := getField fields "account"
                    mapParameters := resolveParameters fields }

/-- The accessor `ConnectionConfig.prototype._getParameterValue`: the parameter's
value when the name is known, `undefined` otherwise. -/
def ConnectionConfig.getParameterValue (c : ConnectionConfig)
    (parameterName : String) : JsValue :=
  match c.mapParameters.find? (fun pv => pv.1.name = parameterName) with
  | some pv => pv.2
  | none => .undefined

/-- Accessor `getTimeout()`. -/
def ConnectionConfig.getTimeout (c : ConnectionConfig) : JsValue :=
  c.getParameterValue "timeout"

/-- Accessor `getResultPrefetch()`. -/
def ConnectionConfig.getResultPrefetch (c : ConnectionConfig) : JsValue :=
  c.getParameterValue "resultPrefetch"

/-- Accessor `getResultStreamInterrupts()`. -/
def ConnectionConfig.getResultStreamInterrupts (c : ConnectionConfig) : JsValue :=
  c.getParameterValue "resultStreamInterrupts"

/-- Accessor `getResultChunkCacheSize()`. -/
def ConnectionConfig.getResultChunkCacheSize (c : ConnectionConfig) : JsValue :=
  c.getParameterValue "resultChunkCacheSize"

/-- Accessor `getResultProcessingBatchSize()`. -/
def ConnectionConfig.getResultProcessingBatchSize (c : ConnectionConfig) : JsValue :=
  c.getParameterValue "resultProcessingBatchSize"

/-- Accessor `getResultProcessingBatchDuration()`. -/
def ConnectionConfig.getResultProcessingBatchDuration (c : ConnectionConfig) : JsValue :=
  c.getParameterValue "resultProcessingBatchDuration"

/-- Accessor `getRowStreamHighWaterMark()`. -/
def ConnectionConfig.getRowStreamHighWaterMark (c : ConnectionConfig) : JsValue :=
  c.getParameterValue "rowStreamHighWaterMark"

/-- Accessor `getRetryLargeResultSetMaxNumRetries()`. -/
def ConnectionConfig.getRetryLargeResultSetMaxNumRetries (c : ConnectionConfig) : JsValue :=
  c.getParameterValue "largeResultSetRetryMaxNumRetries"

/-- Accessor `getRetryLargeResultSetMaxSleepTime()`. -/
def ConnectionConfig.getRetryLargeResultSetMaxSleepTime (c : ConnectionConfig) : JsValue :=
  c.getParameterValue "largeResultSetRetryMaxSleepTime"

/-- Accessor `getRetrySfMaxNumRetries()`. -/
def ConnectionConfig.getRetrySfMaxNumRetries (c : ConnectionConfig) : JsValue :=
  c.getParameterValue "sfRetryMaxNumRetries"

/-- Accessor `getRetrySfStartingSleepTime()`. -/
def ConnectionConfig.getRetrySfStartingSleepTime (c : ConnectionConfig) : JsValue :=
  c.getParameterValue "sfRetryStartingSleepTime"

/-- Accessor `getRetrySfMaxSleepTime()`. -/
def ConnectionConfig.getRetrySfMaxSleepTime (c : ConnectionConfig) : JsValue :=
  c.getParameterValue "sfRetryMaxSleepTime"

/-- Accessor `getProxy()`. -/
def ConnectionConfig.getProxy (c : ConnectionConfig) : Option ProxySettings :=
  c.proxy

/-- Accessor `isQaMode()`. -/
def ConnectionConfig.isQaMode (c : ConnectionConfig) : JsValue :=
  c.qaMode

/-- The operation `ConnectionConfig.prototype.clearCredentials`: sets the password to
null. -/
def ConnectionConfig.clearCredentials (c : ConnectionConfig) : ConnectionConfig :=
  { c with password := .null }

/-! ### Basic properties of property reads and writes -/

theorem lookupField_setField_self (fs : Fields) (k : String) (v : JsValue) :
    lookupField (setField fs k v) k = some v := by
  induction fs with
  | nil => simp [setField, lookupField]
  | cons kv rest ih =>
      obtain ⟨k', v'⟩ := kv
      by_cases h : k' = k
      · simp [setField, h, lookupField]
      · simp [setField, h, lookupField, ih]

theorem lookupField_setField_ne (fs : Fields) {k k' : String} (v : JsValue)
    (h : k ≠ k') : lookupField (setField fs k v) k' = lookupField fs k' := by
  induction fs with
  | nil => simp [setField, lookupField, h]
  | cons kv rest ih =>
      obtain ⟨k₀, v₀⟩ := kv
      by_cases h0 : k₀ = k
      · subst h0; simp [setField, lookupField, h]
      · simp [setField, h0, lookupField, ih]

theorem getField_setField_self (fs : Fields) (k : String) (v : JsValue) :
    getField (setField fs k v) k = v := by
  simp [getField, lookupField_setField_self]

theorem getField_setField_ne (fs : Fields) {k k' : String} (v : JsValue)
    (h : k ≠ k') : getField (setField fs k v) k' = getField fs k' := by
  simp [getField, lookupField_setField_ne fs v h]

theorem mem_keys_setField {fs : Fields} {k a : String} {v : JsValue} :
    a ∈ (setField fs k v).map Prod.fst ↔ a ∈ fs.map Prod.fst ∨ a = k := by
  induction fs with
  | nil => simp [setField]
  | cons kv rest ih =>
      obtain ⟨k', v'⟩ := kv
      by_cases h : k' = k
      · subst h; simp [setField]; tauto
      · simp [setField, h, ih]; tauto

theorem keys_nodup_setField {fs : Fields} {k : String} {v : JsValue}
    (h : (fs.map Prod.fst).Nodup) : ((setField fs k v).map Prod.fst).Nodup := by
  induction fs with
  | nil => simp [setField]
  | cons kv rest ih =>
      obtain ⟨k', v'⟩ := kv
      simp only [List.map_cons, List.nodup_cons] at h
      by_cases hk : k' = k
      · subst hk; simpa [setField] using h
      · simp only [setField, hk, if_false, List.map_cons, List.nodup_cons]
        refine ⟨fun hmem => ?_, ih h.2⟩
        rcases mem_keys_setField.mp hmem with h1 | h1
        · exact h.1 h1
        · exact hk h1

/-! ### The identity step only writes account, region and accessUrl -/

theorem lookupField_splitAccount_ne (fs : Fields) {k : String}
    (hr : k ≠ "region") (ha : k ≠ "account") :
    lookupField (splitAccount fs) k = lookupField fs k := by
  unfold splitAccount
  cases h : accountDotSplit (jsToString (getField fs "account")) with
  | none => rfl
  | some pr =>
      obtain ⟨b, r⟩ := pr
      rw [lookupField_setField_ne _ _ (fun h => ha h.symm),
        lookupField_setField_ne _ _ (fun h => hr h.symm)]

theorem keys_nodup_splitAccount {fs : Fields}
    (h : (fs.map Prod.fst).Nodup) :
    ((splitAccount fs).map Prod.fst).Nodup := by
  unfold splitAccount
  cases hd : accountDotSplit (jsToString (getField fs "account")) with
  | none => exact h
  | some pr =>
      obtain ⟨b, r⟩ := pr
      exact keys_nodup_setField (keys_nodup_setField h)

theorem lookupField_deriveAccessUrl_ne {fs fs' : Fields} {k : String}
    (hr : k ≠ "region") (hu : k ≠ "accessUrl")
    (h : deriveAccessUrl fs = .ok fs') :
    lookupField fs' k = lookupField fs k := by
  unfold deriveAccessUrl at h
  split at h
  · cases h; rfl
  · split at h
    · cases h
      rw [lookupField_setField_ne _ _ (fun h => hu h.symm)]
    · split at h
      · cases h
      · split at h
        · cases h
          rw [lookupField_setField_ne _ _ (fun h => hu h.symm),
            lookupField_setField_ne _ _ (fun h => hr h.symm)]
        · cases h
          rw [lookupField_setField_ne _ _ (fun h => hu h.symm)]

theorem keys_nodup_deriveAccessUrl {fs fs' : Fields}
    (h : deriveAccessUrl fs = .ok fs')
    (hnd : (fs.map Prod.fst).Nodup) :
    (fs'.map Prod.fst).Nodup := by
  unfold deriveAccessUrl at h
  split at h
  · cases h; exact hnd
  · split at h
    · cases h; exact keys_nodup_setField hnd
    · split at h
      · cases h
      · split at h
        · cases h; exact keys_nodup_setField (keys_nodup_setField hnd)
        · cases h; exact keys_nodup_setField hnd

theorem identityStep_ok_preserves {b : Bool} {fs fs' : Fields} {k : String}
    (ha : k ≠ "account") (hr : k ≠ "region") (hu : k ≠ "accessUrl")
    (h : identityStep b fs = .ok fs') :
    lookupField fs' k = lookupField fs k := by
  unfold identityStep at h
  split at h
  · cases h; rfl
  · split at h
    · cases h
    · split at h
      · cases h
      · split at h
        · cases h
        · split at h
          · cases h
          · split at h
            · cases h
            · split at h
              · cases h
              · rw [lookupField_deriveAccessUrl_ne hr hu h,
                  lookupField_splitAccount_ne fs hr ha]

theorem identityStep_ok_nodup {b : Bool} {fs fs' : Fields}
    (h : identityStep b fs = .ok fs')
    (hnd : (fs.map Prod.fst).Nodup) :
    (fs'.map Prod.fst).Nodup := by
  unfold identityStep at h
  split at h
  · cases h; exact hnd
  · split at h
    · cases h
    · split at h
      · cases h
      · split at h
        · cases h
        · split at h
          · cases h
          · split at h
            · cases h
            · split at h
              · cases h
              · exact keys_nodup_deriveAccessUrl h (keys_nodup_splitAccount hnd)

/-! ### The override loop, parameter by parameter -/

/-- The cumulative effect of the override loop (source lines 343–357) on
one parameter: starting from `v₀`, each property whose key matches the
parameter's name replaces the value when the parameter is external and
the value validates. -/
def overrideVal (p : Parameter) (v₀ : JsValue) (gs : Fields) : JsValue :=
  gs.foldl (fun acc kv =>
    if p.name = kv.1 && p.external && runValidator p.validate kv.2
    then kv.2 else acc) v₀

theorem foldl_applyOption (gs : Fields) :
    ∀ ps : List (Parameter × JsValue),
      gs.foldl applyOption ps = ps.map fun pv => (pv.1, overrideVal pv.1 pv.2 gs) := by
  induction gs with
  | nil =>
      intro ps
      simp [overrideVal]
  | cons kv gs ih =>
      intro ps
      rw [List.foldl_cons, ih, applyOption, List.map_map]
      apply List.map_congr_left
      intro pv _
      simp only [Function.comp]
      by_cases hc :
          (decide (pv.1.name = kv.1) && pv.1.external &&
            runValidator pv.1.validate kv.2) = true
      · simp only [hc, if_true, overrideVal, List.foldl_cons]
      · simp only [Bool.not_eq_true] at hc
        simp only [hc, Bool.false_eq_true, if_false, overrideVal, List.foldl_cons]

theorem resolveParameters_eq (gs : Fields) :
    resolveParameters gs =
      createParameters.map fun p => (p, overrideVal p p.defaultValue gs) := by
  rw [resolveParameters, foldl_applyOption, List.map_map]
  rfl

theorem lookupField_eq_none_iff {fs : Fields} {k : String} :
    lookupField fs k = none ↔ k ∉ fs.map Prod.fst := by
  induction fs with
  | nil => simp [lookupField]
  | cons kv rest ih =>
      obtain ⟨k', v⟩ := kv
      by_cases h : k' = k
      · subst h; simp [lookupField]
      · simp only [List.map_cons, List.mem_cons, not_or]
        rw [lookupField, if_neg h, ih]
        exact (and_iff_right (fun he => h he.symm)).symm

theorem lookupField_mem {fs : Fields} {k : String} {v : JsValue}
    (h : lookupField fs k = some v) : (k, v) ∈ fs := by
  induction fs with
  | nil => cases h
  | cons kv rest ih =>
      obtain ⟨k', v'⟩ := kv
      by_cases hk : k' = k
      · subst hk
        simp [lookupField] at h
        subst h
        exact List.mem_cons_self _ _
      · simp [lookupField, hk] at h
        exact List.mem_cons_of_mem _ (ih h)

theorem lookupField_of_mem {fs : Fields} {k : String} {v : JsValue}
    (hnd : (fs.map Prod.fst).Nodup) (h : (k, v) ∈ fs) :
    lookupField fs k = some v := by
  induction fs with
  | nil => cases h
  | cons kv rest ih =>
      obtain ⟨k', v'⟩ := kv
      simp only [List.map_cons, List.nodup_cons] at hnd
      rcases List.mem_cons.mp h with h1 | h1
      · cases h1
        simp [lookupField]
      · have hne : k' ≠ k := by
          intro he
          subst he
          exact hnd.1 (List.mem_map.mpr ⟨(k', v), h1, rfl⟩)
        simp [lookupField, hne, ih hnd.2 h1]

theorem lookupField_perm {fs gs : Fields} (hp : fs.Perm gs)
    (hnd : (fs.map Prod.fst).Nodup) (k : String) :
    lookupField fs k = lookupField gs k := by
  cases h : lookupField fs k with
  | none =>
      symm
      rw [lookupField_eq_none_iff]
      intro hm
      exact lookupField_eq_none_iff.mp h ((hp.map Prod.fst).mem_iff.mpr hm)
  | some v =>
      symm
      exact lookupField_of_mem ((hp.map Prod.fst).nodup_iff.mp hnd)
        (hp.mem_iff.mp (lookupField_mem h))

theorem overrideVal_of_not_mem {p : Parameter} {gs : Fields}
    (h : p.name ∉ gs.map Prod.fst) (v₀ : JsValue) :
    overrideVal p v₀ gs = v₀ := by
  induction gs generalizing v₀ with
  | nil => rfl
  | cons kv rest ih =>
      obtain ⟨k, w⟩ := kv
      simp only [List.map_cons, List.mem_cons, not_or] at h
      rw [overrideVal, List.foldl_cons]
      simp only [h.1, decide_False, Bool.false_and, Bool.false_eq_true, if_false]
      exact ih h.2 v₀

theorem overrideVal_lookup_some {p : Parameter} {v : JsValue} {gs : Fields}
    (hnd : (gs.map Prod.fst).Nodup) (h : lookupField gs p.name = some v)
    (v₀ : JsValue) :
    overrideVal p v₀ gs =
      if p.external && runValidator p.validate v then v else v₀ := by
  induction gs generalizing v₀ with
  | nil => cases h
  | cons kv rest ih =>
      obtain ⟨k, w⟩ := kv
      simp only [List.map_cons, List.nodup_cons] at hnd
      by_cases hk : k = p.name
      · subst hk
        have h' : w = v := by simpa [lookupField] using h
        subst h'
        rw [overrideVal, List.foldl_cons]
        simp only [eq_self_iff_true, decide_True, Bool.true_and]
        by_cases hc : (p.external && runValidator p.validate w) = true
        · simp only [hc, if_true]
          exact overrideVal_of_not_mem hnd.1 w
        · simp only [Bool.not_eq_true] at hc
          rw [hc]
          simp only [Bool.false_eq_true, if_false]
          exact overrideVal_of_not_mem hnd.1 v₀
      · have hk' : k ≠ p.name := hk
        rw [lookupField, if_neg hk'] at h
        rw [overrideVal, List.foldl_cons]
        have hd : decide (p.name = k) = false :=
          decide_eq_false (fun he => hk' he.symm)
        simp only [hd, Bool.false_and, Bool.false_eq_true, if_false]
        exact ih hnd.2 h v₀

theorem overrideVal_lookup_none {p : Parameter} {gs : Fields}
    (h : lookupField gs p.name = none) (v₀ : JsValue) :
    overrideVal p v₀ gs = v₀ :=
  overrideVal_of_not_mem (lookupField_eq_none_iff.mp h) v₀

/-! ### Catalog facts -/

theorem find_catalog_self {p : Parameter} (hp : p ∈ createParameters) :
    createParameters.find? (fun x => x.name = p.name) = some p := by
  simp only [createParameters, List.mem_cons, List.not_mem_nil, or_false] at hp
  rcases hp with rfl | rfl | rfl | rfl | rfl | rfl | rfl | rfl | rfl | rfl | rfl | rfl <;> rfl

theorem catalog_name_not_special {p : Parameter} (hp : p ∈ createParameters) :
    p.name ≠ "account" ∧ p.name ≠ "region" ∧ p.name ≠ "accessUrl" := by
  simp only [createParameters, List.mem_cons, List.not_mem_nil, or_false] at hp
  rcases hp with rfl | rfl | rfl | rfl | rfl | rfl | rfl | rfl | rfl | rfl | rfl | rfl <;>
    exact ⟨by decide, by decide, by decide⟩

theorem find_resolveParameters {gs : Fields} {p : Parameter}
    (hp : p ∈ createParameters) :
    (resolveParameters gs).find? (fun pv => pv.1.name = p.name) =
      some (p, overrideVal p p.defaultValue gs) := by
  rw [resolveParameters_eq, List.find?_map]
  have hc : ((fun pv : Parameter × JsValue => decide (pv.1.name = p.name)) ∘
      (fun q : Parameter => (q, overrideVal q q.defaultValue gs))) =
      fun q : Parameter => decide (q.name = p.name) := rfl
  rw [hc, find_catalog_self hp]
  rfl

theorem find_resolveParameters_none {gs : Fields} {nm : String}
    (h : ∀ p ∈ createParameters, p.name ≠ nm) :
    (resolveParameters gs).find? (fun pv => pv.1.name = nm) = none := by
  rw [resolveParameters_eq, List.find?_map]
  have hn : List.find? ((fun pv : Parameter × JsValue => decide (pv.1.name = nm)) ∘
      (fun p : Parameter => (p, overrideVal p p.defaultValue gs)))
      createParameters = none := by
    rw [List.find?_eq_none]
    intro p hp
    simp [h p hp]
  rw [hn]
  rfl

/-! ### Inversion of a successful construction -/

theorem connectionConfig_ok_inv {fields : Fields} {vc q ci : JsValue} {n : Bool}
    {c : ConnectionConfig}
    (h : connectionConfig (.obj fields) vc q ci n = .ok c) :
    ∃ fields',
      identityStep (jsTruthy (if jsExists vc then vc else .bool true)) fields =
        .ok fields' ∧
      jsExists (getField fields' "accessUrl") = true ∧
      isString (getField fields' "accessUrl") = true ∧
      proxyStep fields' n = .ok c.proxy ∧
      c.username = getField fields' "username" ∧
      c.password = getField fields' "password" ∧
      c.accessUrl = getField fields' "accessUrl" ∧
      c.account = getField fields' "account" ∧
      c.mapParameters = resolveParameters fields' := by
  unfold connectionConfig at h
  rw [show jsExists (JsValue.obj fields) = true from rfl,
    show isObject (JsValue.obj fields) = true from rfl] at h
  simp only [Bool.not_true, Bool.false_eq_true, if_false,
    show objFields (JsValue.obj fields) = fields from rfl] at h
  split at h
  · cases h
  · next fs' heq =>
      refine ⟨fs', heq, ?_⟩
      split at h
      · cases h
      · next hc1 =>
          have hex : jsExists (getField fs' "accessUrl") = true := by
            revert hc1
            cases jsExists (getField fs' "accessUrl") <;> simp
          split at h
          · cases h
          · next hc2 =>
              have hst : isString (getField fs' "accessUrl") = true := by
                revert hc2
                cases isString (getField fs' "accessUrl") <;> simp
              split at h
              · cases h
              · next pr hpr =>
                  split at h
                  · cases h
                  · next u hop =>
                      split at h
                      · cases h
                      · next cv ce hci =>
                          cases h
                          exact ⟨hex, hst, hpr, rfl, rfl, rfl, rfl, rfl⟩

/-! ### The derived access url -/

/-- The derived-URL format as the spec words it:
`https://{account}{subdomain}.snowflakecomputing.com`, where
`{subdomain}` is empty when the region is absent or equals `us-west-2`,
and is `.` followed by the region otherwise. -/
def deriveUrlSpec (account : String) (region : JsValue) : String :=
  if !jsExists region then
    "https://" ++ account ++ ".snowflakecomputing.com"
  else if jsToString region = "us-west-2" then
    "https://" ++ account ++ ".snowflakecomputing.com"
  else
    "https://" ++ account ++ "." ++ jsToString region ++
      ".snowflakecomputing.com"

/-- The account the derivation actually uses: the portion before the
first dot when the account splits, the whole account otherwise. -/
def effAccount (a : String) : String :=
  match accountDotSplit a with
  | some (b, _) => b
  | none => a

/-- The region the derivation actually uses: the portion after the first
dot replaces any caller-supplied region when the account splits. -/
def effRegion (a : String) (r : JsValue) : JsValue :=
  match accountDotSplit a with
  | some (_, rr) => .str rr
  | none => r

theorem splitAccount_fields {fs : Fields} {a : String}
    (hacc : getField fs "account" = .str a) :
    getField (splitAccount fs) "account" = .str (effAccount a) ∧
    getField (splitAccount fs) "region" = effRegion a (getField fs "region") ∧
    getField (splitAccount fs) "accessUrl" = getField fs "accessUrl" := by
  unfold splitAccount effAccount effRegion
  rw [hacc]
  simp only [jsToString]
  cases hd : accountDotSplit a with
  | none => exact ⟨hacc, rfl, rfl⟩
  | some pr =>
      obtain ⟨b, r⟩ := pr
      refine ⟨getField_setField_self _ _ _, ?_, ?_⟩
      · rw [getField_setField_ne _ _ (by decide : "account" ≠ "region")]
        exact getField_setField_self _ _ _
      · rw [getField_setField_ne _ _ (by decide : "account" ≠ "accessUrl"),
          getField_setField_ne _ _ (by decide : "region" ≠ "accessUrl")]

theorem deriveAccessUrl_ok_accessUrl {fs fs' : Fields} {a : String}
    (hacc : getField fs "account" = .str a)
    (hurl : jsExists (getField fs "accessUrl") = false)
    (h : deriveAccessUrl fs = .ok fs') :
    getField fs' "accessUrl" = .str (deriveUrlSpec a (getField fs "region")) := by
  unfold deriveAccessUrl at h
  rw [hurl] at h
  simp only [Bool.false_eq_true, if_false] at h
  unfold deriveUrlSpec
  cases her : jsExists (getField fs "region") with
  | false =>
      rw [her] at h
      simp only [Bool.not_false, if_true] at h
      cases h
      rw [getField_setField_self, hacc]
      simp [jsToString]
  | true =>
      rw [her] at h
      simp only [Bool.not_true, Bool.false_eq_true, if_false] at h
      cases hst : isString (getField fs "region") with
      | false =>
          rw [hst] at h
          simp only [Bool.not_false, if_true] at h
          cases h
      | true =>
          rw [hst] at h
          simp only [Bool.not_true, Bool.false_eq_true, if_false] at h
          by_cases huw : jsToString (getField fs "region") = "us-west-2"
          · rw [if_pos huw] at h
            cases h
            rw [getField_setField_self,
              getField_setField_ne _ _ (by decide : "region" ≠ "account"),
              hacc, if_pos huw]
            simp [jsToString]
          · rw [if_neg huw] at h
            cases h
            rw [getField_setField_self, hacc, if_neg huw]
            simp [jsToString, String.append_assoc]

theorem identityStep_ok_accessUrl {fs fs' : Fields} {a : String}
    (hacc : getField fs "account" = .str a)
    (hurl : jsExists (getField fs "accessUrl") = false)
    (h : identityStep true fs = .ok fs') :
    getField fs' "accessUrl" =
      .str (deriveUrlSpec (effAccount a) (effRegion a (getField fs "region"))) := by
  unfold identityStep at h
  simp only [Bool.not_true, Bool.false_eq_true, if_false] at h
  split at h
  · cases h
  · split at h
    · cases h
    · split at h
      · cases h
      · split at h
        · cases h
        · split at h
          · cases h
          · split at h
            · cases h
            · obtain ⟨h1, h2, h3⟩ := splitAccount_fields hacc
              have hu : jsExists (getField (splitAccount fs) "accessUrl") = false := by
                rw [h3]; exact hurl
              rw [deriveAccessUrl_ok_accessUrl h1 hu h, h2]

/-! ### Small helper facts -/

theorem jsExists_str (s : String) : jsExists (.str s) = true := rfl

theorem isString_str (s : String) : isString (.str s) = true := rfl

theorem jsExists_of_isString {v : JsValue} (h : isString v = true) :
    jsExists v = true := by
  cases v <;> first | rfl | cases h

theorem isString_exists {v : JsValue} (h : isString v = true) :
    ∃ s, v = .str s := by
  cases v with
  | str s => exact ⟨s, rfl⟩
  | _ => cases h

theorem toList_append (s t : String) : (s ++ t).toList = s.toList ++ t.toList := by
  simp [String.toList]

theorem take_https (l : List Char) :
    ("https://".toList ++ l).take 8 = "https://".toList :=
  List.take_left' (by decide)

/-- A successful identity step with validation on means every credential
check passed and the result is the derivation applied to the split
fields. -/
theorem identityStep_ok_eq_derive {fs fs' : Fields}
    (h : identityStep true fs = .ok fs') :
    deriveAccessUrl (splitAccount fs) = .ok fs' := by
  unfold identityStep at h
  simp only [Bool.not_true, Bool.false_eq_true, if_false] at h
  split at h
  · cases h
  · split at h
    · cases h
    · split at h
      · cases h
      · split at h
        · cases h
        · split at h
          · cases h
          · split at h
            · cases h
            · exact h

theorem identityStep_ok_checks {fs fs' : Fields}
    (h : identityStep true fs = .ok fs') :
    isString (getField fs "username") = true ∧
    isString (getField fs "password") = true ∧
    isString (getField fs "account") = true := by
  unfold identityStep at h
  simp only [Bool.not_true, Bool.false_eq_true, if_false] at h
  split at h
  · cases h
  · next hc1 =>
      split at h
      · cases h
      · next hc2 =>
          split at h
          · cases h
          · next hc3 =>
              split at h
              · cases h
              · next hc4 =>
                  split at h
                  · cases h
                  · next hc5 =>
                      split at h
                      · cases h
                      · next hc6 =>
                          refine ⟨?_, ?_, ?_⟩
                          · revert hc2
                            cases isString (getField fs "username") <;> simp
                          · revert hc4
                            cases isString (getField fs "password") <;> simp
                          · revert hc6
                            cases isString (getField fs "account") <;> simp

/-! ### Dot-splitting facts -/

theorem strIndexOf_take {c : Char} {l : List Char} {p : Nat}
    (h : strIndexOf c l = some p) : ∀ x ∈ l.take p, x ≠ c := by
  induction l generalizing p with
  | nil => cases h
  | cons a t ih =>
      rw [strIndexOf] at h
      by_cases ha : a = c
      · rw [if_pos ha] at h
        cases h
        exact fun x hx => absurd hx (List.not_mem_nil x)
      · rw [if_neg ha] at h
        cases hi : strIndexOf c t with
        | none => rw [hi] at h; cases h
        | some p' =>
            rw [hi] at h
            have h' : some (p' + 1) = some p := h
            cases h'
            intro x hx
            rcases List.mem_cons.mp (by simpa [List.take_succ_cons] using hx)
              with h1 | h1
            · subst h1; exact ha
            · exact ih hi x h1

theorem strIndexOf_none_of_not_mem {c : Char} {l : List Char}
    (h : ∀ x ∈ l, x ≠ c) : strIndexOf c l = none := by
  induction l with
  | nil => rfl
  | cons a t ih =>
      rw [strIndexOf, if_neg (h a (List.mem_cons_self a t)),
        ih fun x hx => h x (List.mem_cons_of_mem a hx)]
      rfl

theorem accountDotSplit_before_none {a b r : String}
    (h : accountDotSplit a = some (b, r)) : accountDotSplit b = none := by
  simp only [accountDotSplit] at h ⊢
  split at h
  · next p hi =>
      split at h
      · simp only [Option.some.injEq, Prod.mk.injEq] at h
        obtain ⟨hb, hr⟩ := h
        subst hb
        have hnone : strIndexOf '.' (String.mk (List.take p a.toList)).toList = none :=
          strIndexOf_none_of_not_mem (strIndexOf_take hi)
        rw [hnone]
      · cases h
  · cases h

theorem splitAccount_of_split {fs : Fields} {a b r : String}
    (hacc : getField fs "account" = .str a)
    (h : accountDotSplit a = some (b, r)) :
    splitAccount fs = setField (setField fs "region" (.str r)) "account" (.str b) := by
  unfold splitAccount
  rw [hacc]
  simp only [jsToString]
  rw [h]

theorem splitAccount_of_none {fs : Fields} {a : String}
    (hacc : getField fs "account" = .str a)
    (h : accountDotSplit a = none) :
    splitAccount fs = fs := by
  unfold splitAccount
  rw [hacc]
  simp only [jsToString]
  rw [h]

/-! ### Validity of the optional inputs -/

/-- The proxy fields pass the proxy resolution without error: either the
resolution is inactive, or both fields are present and well-typed. -/
def proxyFieldsOk (fields : Fields) (isNode : Bool) : Bool :=
  !(isNode && (jsExists (getField fields "proxyHost") ||
      jsExists (getField fields "proxyPort"))) ||
  (jsExists (getField fields "proxyHost") &&
   isString (getField fields "proxyHost") &&
   jsExists (getField fields "proxyPort") &&
   isNumber (getField fields "proxyPort"))

/-- Each optional scalar field is absent or valid for its check. -/
def scalarFieldsOk (fields : Fields) : Bool :=
  (!jsExists (getField fields "warehouse") ||
    isString (getField fields "warehouse")) &&
  (!jsExists (getField fields "database") ||
    isString (getField fields "database")) &&
  (!jsExists (getField fields "schema") ||
    isString (getField fields "schema")) &&
  (!jsExists (getField fields "role") ||
    isString (getField fields "role")) &&
  (!jsExists (getField fields "streamResult") ||
    isBoolean (getField fields "streamResult")) &&
  (!jsExists (getField fields "fetchAsString") ||
    (isArray (getField fields "fetchAsString") &&
     decide (findInvalidValue (arrElems (getField fields "fetchAsString")) = -1)))

/-- The client info argument is absent or internally consistent. -/
def clientInfoOk (ci : JsValue) : Bool :=
  !jsExists ci ||
  (isObject ci && isString (getField (objFields ci) "version") &&
   isObject (getField (objFields ci) "environment"))

theorem bool_imp_false {a b : Bool} (h : (!a || b) = true) : (a && !b) = false := by
  revert h
  cases a <;> cases b <;> decide

theorem bool_imp_false3 {a b c : Bool} (h : (!a || (b && c)) = true) :
    (a && !b) = false ∧ (a && !c) = false := by
  revert h
  cases a <;> cases b <;> cases c <;> decide

theorem proxyStep_ok_of {fields : Fields} {n : Bool}
    (h : proxyFieldsOk fields n = true) : ∃ pr, proxyStep fields n = .ok pr := by
  unfold proxyFieldsOk at h
  unfold proxyStep
  cases hg : (n && (jsExists (getField fields "proxyHost") ||
      jsExists (getField fields "proxyPort"))) with
  | false =>
      refine ⟨none, ?_⟩
      simp only [Bool.false_eq_true, if_false]
  | true =>
      rw [hg] at h
      simp only [Bool.not_true, Bool.false_or, Bool.and_eq_true] at h
      obtain ⟨⟨⟨h1, h2⟩, h3⟩, h4⟩ := h
      refine ⟨some { host := jsToString (getField fields "proxyHost"),
                     port := jsToNum (getField fields "proxyPort") }, ?_⟩
      rw [if_pos rfl, h1, h2, h3, h4]
      simp only [Bool.not_true, Bool.false_eq_true, if_false]

theorem optionalStep_ok_of {fields : Fields}
    (h : scalarFieldsOk fields = true) : optionalStep fields = .ok () := by
  unfold scalarFieldsOk at h
  simp only [Bool.and_eq_true] at h
  obtain ⟨⟨⟨⟨⟨h1, h2⟩, h3⟩, h4⟩, h5⟩, h6⟩ := h
  obtain ⟨h6a, h6b⟩ := bool_imp_false3 h6
  unfold optionalStep
  rw [bool_imp_false h1, bool_imp_false h2, bool_imp_false h3,
    bool_imp_false h4, bool_imp_false h5, h6a, h6b]
  simp only [Bool.false_eq_true, if_false]

theorem clientInfoStep_ok_of {ci : JsValue}
    (h : clientInfoOk ci = true) : ∃ cv ce, clientInfoStep ci = .ok (cv, ce) := by
  unfold clientInfoOk at h
  unfold clientInfoStep
  cases hg : jsExists ci with
  | false =>
      refine ⟨.undefined, .undefined, ?_⟩
      simp only [Bool.false_eq_true, if_false]
  | true =>
      rw [hg] at h
      simp only [Bool.not_true, Bool.false_or, Bool.and_eq_true] at h
      obtain ⟨⟨h1, h2⟩, h3⟩ := h
      refine ⟨getField (objFields ci) "version",
        getField (objFields ci) "environment", ?_⟩
      rw [if_pos rfl, h1, h2, h3]
      simp only [Bool.not_true, Bool.false_eq_true, if_false]

/-! ### Error propagation and construction -/

theorem connectionConfig_identity_error {fields : Fields} {vc q ci : JsValue}
    {n : Bool} {e : SfError}
    (h : identityStep (jsTruthy (if jsExists vc then vc else .bool true)) fields
      = .error e) :
    connectionConfig (.obj fields) vc q ci n = .error e := by
  unfold connectionConfig
  rw [show jsExists (JsValue.obj fields) = true from rfl,
    show isObject (JsValue.obj fields) = true from rfl]
  simp only [Bool.not_true, Bool.false_eq_true, if_false,
    show objFields (JsValue.obj fields) = fields from rfl]
  split
  · next e' heq => rw [h] at heq; cases heq; rfl
  · next fs' heq => rw [h] at heq; cases heq

theorem connectionConfig_proxy_error {fields fs' : Fields} {vc q ci : JsValue}
    {n : Bool} {e : SfError}
    (hid : identityStep (jsTruthy (if jsExists vc then vc else .bool true)) fields
      = .ok fs')
    (hst : isString (getField fs' "accessUrl") = true)
    (hpe : proxyStep fs' n = .error e) :
    connectionConfig (.obj fields) vc q ci n = .error e := by
  unfold connectionConfig
  rw [show jsExists (JsValue.obj fields) = true from rfl,
    show isObject (JsValue.obj fields) = true from rfl]
  simp only [Bool.not_true, Bool.false_eq_true, if_false,
    show objFields (JsValue.obj fields) = fields from rfl]
  split
  · next e' heq => rw [hid] at heq; cases heq
  · next fs'' heq =>
      rw [hid] at heq
      cases heq
      rw [jsExists_of_isString hst]
      simp only [Bool.not_true, Bool.false_eq_true, if_false]
      rw [hst]
      simp only [Bool.not_true, Bool.false_eq_true, if_false]
      split
      · next pe heq2 => rw [hpe] at heq2; cases heq2; rfl
      · next pr heq2 => rw [hpe] at heq2; cases heq2

theorem connectionConfig_ok_build {fields fs' : Fields} {vc q ci : JsValue}
    {n : Bool} {pr : Option ProxySettings} {cv ce : JsValue}
    (hid : identityStep (jsTruthy (if jsExists vc then vc else .bool true)) fields
      = .ok fs')
    (hst : isString (getField fs' "accessUrl") = true)
    (hpr : proxyStep fs' n = .ok pr)
    (hop : optionalStep fs' = .ok ())
    (hci : clientInfoStep ci = .ok (cv, ce)) :
    connectionConfig (.obj fields) vc q ci n = .ok
      { qaMode := q, clientVersion := cv, clientEnvironment := ce, proxy := pr,
        warehouse := getField fs' "warehouse",
        database := getField fs' "database",
        schema := getField fs' "schema", role := getField fs' "role",
        streamResult := getField fs' "streamResult",
        fetchAsString := getField fs' "fetchAsString",
        username := getField fs' "username",
        password := getField fs' "password",
        accessUrl := getField fs' "accessUrl",
        account := getField fs' "account",
        mapParameters := resolveParameters fs' } := by
  unfold connectionConfig
  rw [show jsExists (JsValue.obj fields) = true from rfl,
    show isObject (JsValue.obj fields) = true from rfl]
  simp only [Bool.not_true, Bool.false_eq_true, if_false,
    show objFields (JsValue.obj fields) = fields from rfl]
  split
  · next e heq => rw [hid] at heq; cases heq
  · next fs'' heq =>
      rw [hid] at heq
      cases heq
      rw [jsExists_of_isString hst]
      simp only [Bool.not_true, Bool.false_eq_true, if_false]
      rw [hst]
      simp only [Bool.not_true, Bool.false_eq_true, if_false]
      split
      · next e heq2 => rw [hpr] at heq2; cases heq2
      · next pr' heq2 =>
          rw [hpr] at heq2
          cases heq2
          split
          · next e heq3 => rw [hop] at heq3; cases heq3
          · next u heq3 =>
              split
              · next e heq4 => rw [hci] at heq4; cases heq4
              · next cv' ce' heq4 =>
                  rw [hci] at heq4
                  cases heq4
                  rfl

/-! ### Claim theorems -/

/-- C8: `clearCredentials()` sets the password to null, is idempotent
(one-way), and leaves the username and accessUrl unchanged. -/
theorem clearCredentials_clears_and_preserves (c : ConnectionConfig) :
    c.clearCredentials.password = .null ∧
    c.clearCredentials.clearCredentials = c.clearCredentials ∧
    c.clearCredentials.username = c.username ∧
    c.clearCredentials.accessUrl = c.accessUrl :=
  ⟨rfl, rfl, rfl, rfl⟩

/-- C1 (amended): with credential validation on, a string account and no
supplied accessUrl, the resulting accessUrl is exactly the spec's
derived-URL format applied to the post-split account and region (the
values after the dot-splitting of the account field). -/
theorem accessUrl_matches_derivation
    (fields : Fields) (vc q ci : JsValue) (n : Bool) (c : ConnectionConfig)
    (a : String)
    (hvc : jsTruthy (if jsExists vc then vc else .bool true) = true)
    (hacc : getField fields "account" = .str a)
    (hurl : jsExists (getField fields "accessUrl") = false)
    (hok : connectionConfig (.obj fields) vc q ci n = .ok c) :
    c.accessUrl =
      .str (deriveUrlSpec (effAccount a) (effRegion a (getField fields "region"))) := by
  obtain ⟨fs', hid, _, _, _, _, _, hcu, _, _⟩ := connectionConfig_ok_inv hok
  rw [hvc] at hid
  rw [hcu, identityStep_ok_accessUrl hacc hurl hid]

/-- C1 counterexample: for `account="a.us-west-2"` with no region, the
code derives `https://a.snowflakecomputing.com`, not the claim's
`https://{account}{subdomain}.snowflakecomputing.com` computed from the
caller-supplied account and region. -/
theorem accessUrl_claimed_format_counterexample :
    (connectionConfig
        (.obj [("username", .str "u"), ("password", .str "p"),
               ("account", .str "a.us-west-2")])
        .undefined .undefined .undefined false).map ConnectionConfig.accessUrl =
      .ok (.str "https://a.snowflakecomputing.com") ∧
    "https://a.snowflakecomputing.com" ≠
      deriveUrlSpec "a.us-west-2" .undefined :=
  ⟨rfl, by decide⟩

/-- C1 witness: `account="abc"`, `region="eu-central-1"` derives
`https://abc.eu-central-1.snowflakecomputing.com`. -/
theorem accessUrl_matches_derivation_witness :
    (connectionConfig
        (.obj [("username", .str "u"), ("password", .str "p"),
               ("account", .str "abc"), ("region", .str "eu-central-1")])
        .undefined .undefined .undefined false).map ConnectionConfig.accessUrl =
      .ok (.str "https://abc.eu-central-1.snowflakecomputing.com") := by
  obtain ⟨c, hc⟩ : ∃ c, connectionConfig
      (.obj [("username", .str "u"), ("password", .str "p"),
             ("account", .str "abc"), ("region", .str "eu-central-1")])
      .undefined .undefined .undefined false = .ok c := ⟨_, rfl⟩
  have h := accessUrl_matches_derivation
    [("username", .str "u"), ("password", .str "p"),
     ("account", .str "abc"), ("region", .str "eu-central-1")]
    .undefined .undefined .undefined false c "abc" rfl rfl rfl hc
  rw [hc]
  show Except.ok c.accessUrl = _
  rw [h]
  rfl

theorem https_shape {s rest : String} (hs : s = "https://" ++ rest)
    (hrest : 23 ≤ rest.toList.length) :
    s.toList.take 8 = "https://".toList ∧ 8 < s.toList.length := by
  subst hs
  rw [toList_append]
  refine ⟨take_https _, ?_⟩
  have h8 : ("https://".toList).length = 8 := by decide
  rw [List.length_append, h8]
  omega

/-- C6 (amended): every successful construction stores a string
accessUrl; when the url was derived (credential validation on and no
accessUrl in the input) it has the shape `https://<host>` with a
non-empty host.  A caller-supplied accessUrl is stored as-is and may be
any string, including the empty one. -/
theorem accessUrl_string_and_derived_https
    (fields : Fields) (vc q ci : JsValue) (n : Bool) (c : ConnectionConfig)
    (hok : connectionConfig (.obj fields) vc q ci n = .ok c) :
    isString c.accessUrl = true ∧
    (jsTruthy (if jsExists vc then vc else .bool true) = true →
     jsExists (getField fields "accessUrl") = false →
     (jsToString c.accessUrl).toList.take 8 = "https://".toList ∧
     8 < (jsToString c.accessUrl).toList.length) := by
  obtain ⟨fs', hid, _, hst, _, _, _, hcu, _, _⟩ := connectionConfig_ok_inv hok
  constructor
  · rw [hcu]; exact hst
  · intro hvc hurl
    rw [hvc] at hid
    obtain ⟨_, _, hsa⟩ := identityStep_ok_checks hid
    obtain ⟨a, ha⟩ := isString_exists hsa
    have ha' : getField fields "account" = .str a := by
      unfold getField
      unfold getField at ha
      exact ha
    rw [hcu, identityStep_ok_accessUrl ha' hurl hid]
    simp only [jsToString]
    unfold deriveUrlSpec
    split
    · refine https_shape (by rw [String.append_assoc]) ?_
      rw [toList_append, List.length_append]
      have h23 : (".snowflakecomputing.com".toList).length = 23 := by decide
      omega
    · split
      · refine https_shape (by rw [String.append_assoc]) ?_
        rw [toList_append, List.length_append]
        have h23 : (".snowflakecomputing.com".toList).length = 23 := by decide
        omega
      · refine https_shape (by rw [String.append_assoc, String.append_assoc,
          String.append_assoc]) ?_
        rw [toList_append, toList_append, toList_append,
          List.length_append, List.length_append, List.length_append]
        have h23 : (".snowflakecomputing.com".toList).length = 23 := by decide
        omega

/-- C6 counterexample: the caller may supply the empty string as
accessUrl; construction succeeds and stores it, so the stored accessUrl
is neither non-empty nor of the shape `https://<host>`. -/
theorem accessUrl_wellformed_counterexample :
    (connectionConfig (.obj [("accessUrl", .str "")]) (.bool false)
        .undefined .undefined false).map ConnectionConfig.accessUrl =
      .ok (.str "") ∧
    ("" : String).toList.take 8 ≠ "https://".toList :=
  ⟨rfl, by decide⟩

/-- C6 witness: a derived url is a string of shape `https://<host>`. -/
theorem accessUrl_string_and_derived_https_witness :
    (connectionConfig
        (.obj [("username", .str "u"), ("password", .str "p"),
               ("account", .str "abc")])
        .undefined .undefined .undefined false).map
      (fun c => (isString c.accessUrl,
        (jsToString c.accessUrl).toList.take 8 = "https://".toList ∧
        8 < (jsToString c.accessUrl).toList.length)) =
      .ok (true, True) := by
  obtain ⟨c, hc⟩ : ∃ c, connectionConfig
      (.obj [("username", .str "u"), ("password", .str "p"),
             ("account", .str "abc")])
      .undefined .undefined .undefined false = .ok c := ⟨_, rfl⟩
  obtain ⟨h1, h2⟩ := accessUrl_string_and_derived_https
    [("username", .str "u"), ("password", .str "p"), ("account", .str "abc")]
    .undefined .undefined .undefined false c hc
  obtain ⟨h2a, h2b⟩ := h2 rfl rfl
  rw [hc]
  show Except.ok (isString c.accessUrl, _ ∧ _) = _
  rw [h1]
  congr 1
  refine Prod.ext rfl ?_
  simp only [eq_iff_iff, iff_true]
  exact ⟨h2a, h2b⟩

/-- C7 (amended): the parameter-value accessor, invoked with a name that
is not in the catalog, returns `undefined` — it raises no error of any
kind. -/
theorem unknownParameterName_undefined
    (fields : Fields) (vc q ci : JsValue) (n : Bool) (c : ConnectionConfig)
    (nm : String)
    (hnm : nm ∉ createParameters.map Parameter.name)
    (hok : connectionConfig (.obj fields) vc q ci n = .ok c) :
    c.getParameterValue nm = .undefined := by
  obtain ⟨fs', _, _, _, _, _, _, _, _, hmap⟩ := connectionConfig_ok_inv hok
  unfold ConnectionConfig.getParameterValue
  rw [hmap, find_resolveParameters_none
    (fun p hp he => hnm (List.mem_map.mpr ⟨p, hp, he⟩))]

/-- C7 counterexample: the accessor returns the ordinary value
`undefined` for an unknown name — construction and the call both
complete without an internal/assertion error. -/
theorem unknownParameterName_counterexample :
    (connectionConfig
        (.obj [("accessUrl", .str "https://org.snowflakecomputing.com")])
        (.bool false) .undefined .undefined false).map
      (fun c => c.getParameterValue "bogus") = .ok .undefined :=
  rfl

/-- C7 witness: the amended behaviour at a concrete unknown name. -/
theorem unknownParameterName_undefined_witness :
    (connectionConfig (.obj [("accessUrl", .str "https://x")]) (.bool false)
        .undefined .undefined false).map
      (fun c => c.getParameterValue "nonsense") = .ok .undefined := by
  obtain ⟨c, hc⟩ : ∃ c, connectionConfig (.obj [("accessUrl", .str "https://x")])
      (.bool false) .undefined .undefined false = .ok c := ⟨_, rfl⟩
  have h := unknownParameterName_undefined [("accessUrl", .str "https://x")]
    (.bool false) .undefined .undefined false c "nonsense" (by decide) hc
  rw [hc]
  show Except.ok (c.getParameterValue "nonsense") = _
  rw [h]

/-- C3: a caller-supplied value under a catalog parameter's name becomes
the parameter's final value exactly when the parameter is externally
overridable and its validator accepts the value; otherwise the default
is kept, and construction does not fail on account of that entry. -/
theorem parameterOverride
    (fields : Fields) (vc q ci : JsValue) (n : Bool) (c : ConnectionConfig)
    (p : Parameter) (v : JsValue)
    (hnd : (fields.map Prod.fst).Nodup)
    (hp : p ∈ createParameters)
    (hv : lookupField fields p.name = some v)
    (hok : connectionConfig (.obj fields) vc q ci n = .ok c) :
    c.getParameterValue p.name =
      if p.external && runValidator p.validate v then v else p.defaultValue := by
  obtain ⟨fs', hid, _, _, _, _, _, _, _, hmap⟩ := connectionConfig_ok_inv hok
  obtain ⟨hna, hnr, hnu⟩ := catalog_name_not_special hp
  have hv' : lookupField fs' p.name = some v := by
    rw [identityStep_ok_preserves hna hnr hnu hid]
    exact hv
  have hnd' := identityStep_ok_nodup hid hnd
  unfold ConnectionConfig.getParameterValue
  rw [hmap, find_resolveParameters hp]
  exact overrideVal_lookup_some hnd' hv' p.defaultValue

/-- C3 witness: `timeout=-5` is invalid, so `getTimeout()` returns the
default `90000` while construction still succeeds; membership, key
uniqueness and the lookup are discharged concretely. -/
theorem parameterOverride_witness :
    (connectionConfig
        (.obj [("username", .str "u"), ("password", .str "p"),
               ("account", .str "abc"), ("timeout", .num (-5))])
        .undefined .undefined .undefined false).map ConnectionConfig.getTimeout =
      .ok (.num 90000) := by
  obtain ⟨c, hc⟩ : ∃ c, connectionConfig
      (.obj [("username", .str "u"), ("password", .str "p"),
             ("account", .str "abc"), ("timeout", .num (-5))])
      .undefined .undefined .undefined false = .ok c := ⟨_, rfl⟩
  have h := parameterOverride
    [("username", .str "u"), ("password", .str "p"),
     ("account", .str "abc"), ("timeout", .num (-5))]
    .undefined .undefined .undefined false c
    { name := "timeout", defaultValue := .num 90000, external := true,
      validate := .positiveInteger }
    (.num (-5)) (by decide) (by unfold createParameters; exact .head _) rfl hc
  rw [hc]
  show Except.ok (c.getParameterValue "timeout") = _
  rw [h]
  rfl

/-- The override-resolution step as the spec words it: iterate the
catalog in declaration order and consult the caller's input only for the
name each catalog entry declares. -/
def catalogResolve (fields : Fields) : List (Parameter × JsValue) :=
  createParameters.map fun p =>
    (p, match lookupField fields p.name with
        | some v => if p.external && runValidator p.validate v then v
                    else p.defaultValue
        | none => p.defaultValue)

/-- C9: for unique input keys (as JavaScript objects have), the code's
loop over the input properties computes exactly the catalog-driven
iteration, and its result does not depend on the enumeration order of
the input keys. -/
theorem overrideResolution_refines_catalog (fields : Fields)
    (hnd : (fields.map Prod.fst).Nodup) :
    resolveParameters fields = catalogResolve fields ∧
    ∀ fields₂, fields.Perm fields₂ →
      resolveParameters fields₂ = resolveParameters fields := by
  have key : ∀ gs : Fields, (gs.map Prod.fst).Nodup →
      resolveParameters gs = catalogResolve gs := by
    intro gs hg
    rw [resolveParameters_eq, catalogResolve]
    apply List.map_congr_left
    intro p _
    cases hl : lookupField gs p.name with
    | none => rw [overrideVal_lookup_none hl]
    | some v => rw [overrideVal_lookup_some hg hl]
  refine ⟨key fields hnd, fun fields₂ hperm => ?_⟩
  have hnd₂ := (hperm.map Prod.fst).nodup_iff.mp hnd
  rw [key fields hnd, key fields₂ hnd₂]
  unfold catalogResolve
  apply List.map_congr_left
  intro p _
  rw [lookupField_perm hperm hnd p.name]

/-- C9 witness: a two-key input and its transposition resolve
identically, and both equal the catalog-driven iteration. -/
theorem overrideResolution_refines_catalog_witness :
    resolveParameters [("timeout", .num 5000), ("resultPrefetch", .num 7)] =
      catalogResolve [("timeout", .num 5000), ("resultPrefetch", .num 7)] ∧
    resolveParameters [("resultPrefetch", .num 7), ("timeout", .num 5000)] =
      resolveParameters [("timeout", .num 5000), ("resultPrefetch", .num 7)] := by
  have h := overrideResolution_refines_catalog
    [("timeout", .num 5000), ("resultPrefetch", .num 7)] (by decide)
  exact ⟨h.1, h.2 [("resultPrefetch", .num 7), ("timeout", .num 5000)]
    (List.Perm.swap _ _ _)⟩

theorem identityStep_missing_username {fs : Fields}
    (h : jsExists (getField fs "username") = false) :
    identityStep true fs =
      .error (.argError .ERR_CONN_CREATE_MISSING_USERNAME) := by
  unfold identityStep
  rw [h]
  rfl

theorem identityStep_missing_password {fs : Fields}
    (hsu : isString (getField fs "username") = true)
    (h : jsExists (getField fs "password") = false) :
    identityStep true fs =
      .error (.argError .ERR_CONN_CREATE_MISSING_PASSWORD) := by
  unfold identityStep
  rw [jsExists_of_isString hsu, hsu, h]
  rfl

theorem identityStep_missing_account {fs : Fields}
    (hsu : isString (getField fs "username") = true)
    (hsp : isString (getField fs "password") = true)
    (h : jsExists (getField fs "account") = false) :
    identityStep true fs =
      .error (.argError .ERR_CONN_CREATE_MISSING_ACCOUNT) := by
  unfold identityStep
  rw [jsExists_of_isString hsu, hsu, jsExists_of_isString hsp, hsp, h]
  rfl

/-- C2: with credential validation on (true or unspecified), a missing
username, password or account fails with the matching missing-field
error, the fields being checked in that order; with validation off,
construction succeeds whenever accessUrl is a supplied string and the
optional fields are absent or valid. -/
theorem credentialValidation
    (fields : Fields) (vc q ci : JsValue) (n : Bool) :
    (jsTruthy (if jsExists vc then vc else .bool true) = true →
      (jsExists (getField fields "username") = false →
        connectionConfig (.obj fields) vc q ci n =
          .error (.argError .ERR_CONN_CREATE_MISSING_USERNAME)) ∧
      (isString (getField fields "username") = true →
        jsExists (getField fields "password") = false →
        connectionConfig (.obj fields) vc q ci n =
          .error (.argError .ERR_CONN_CREATE_MISSING_PASSWORD)) ∧
      (isString (getField fields "username") = true →
        isString (getField fields "password") = true →
        jsExists (getField fields "account") = false →
        connectionConfig (.obj fields) vc q ci n =
          .error (.argError .ERR_CONN_CREATE_MISSING_ACCOUNT))) ∧
    (jsTruthy (if jsExists vc then vc else .bool true) = false →
      isString (getField fields "accessUrl") = true →
      proxyFieldsOk fields n = true →
      scalarFieldsOk fields = true →
      clientInfoOk ci = true →
      ∃ c, connectionConfig (.obj fields) vc q ci n = .ok c) := by
  constructor
  · intro hvc
    refine ⟨fun h1 => ?_, fun hsu h2 => ?_, fun hsu hsp h3 => ?_⟩
    · apply connectionConfig_identity_error
      rw [hvc]
      exact identityStep_missing_username h1
    · apply connectionConfig_identity_error
      rw [hvc]
      exact identityStep_missing_password hsu h2
    · apply connectionConfig_identity_error
      rw [hvc]
      exact identityStep_missing_account hsu hsp h3
  · intro hvc hurl hproxy hscalar hci
    obtain ⟨pr, hpr⟩ := proxyStep_ok_of hproxy
    obtain ⟨cv, ce, hcis⟩ := clientInfoStep_ok_of hci
    have hid : identityStep
        (jsTruthy (if jsExists vc then vc else .bool true)) fields =
        .ok fields := by
      rw [hvc]
      rfl
    exact ⟨_, connectionConfig_ok_build hid hurl hpr
      (optionalStep_ok_of hscalar) hcis⟩

/-- C2 witness: a missing username with the flag unspecified fails with
the missing-username error; with the flag false and only an accessUrl,
construction succeeds. -/
theorem credentialValidation_witness :
    connectionConfig (.obj [("password", .str "p")]) .undefined .undefined
      .undefined false =
      .error (.argError .ERR_CONN_CREATE_MISSING_USERNAME) ∧
    ∃ c, connectionConfig (.obj [("accessUrl", .str "https://x")])
      (.bool false) .undefined .undefined false = .ok c :=
  ⟨((credentialValidation [("password", .str "p")] .undefined .undefined
      .undefined false).1 rfl).1 rfl,
   (credentialValidation [("accessUrl", .str "https://x")] (.bool false)
      .undefined .undefined false).2 rfl rfl rfl rfl rfl⟩

theorem identityStep_split_eq {fields : Fields} {a b r : String}
    (hsplit : accountDotSplit a = some (b, r))
    (hacc : getField fields "account" = .str a) :
    identityStep true fields =
      identityStep true
        (setField (setField fields "region" (.str r)) "account" (.str b)) := by
  have hu : getField
      (setField (setField fields "region" (.str r)) "account" (.str b))
      "username" = getField fields "username" := by
    rw [getField_setField_ne _ _ (by decide : "account" ≠ "username"),
      getField_setField_ne _ _ (by decide : "region" ≠ "username")]
  have hpw : getField
      (setField (setField fields "region" (.str r)) "account" (.str b))
      "password" = getField fields "password" := by
    rw [getField_setField_ne _ _ (by decide : "account" ≠ "password"),
      getField_setField_ne _ _ (by decide : "region" ≠ "password")]
  have haF : getField
      (setField (setField fields "region" (.str r)) "account" (.str b))
      "account" = .str b := getField_setField_self _ _ _
  have hsa1 := splitAccount_of_split hacc hsplit
  have hsa2 := splitAccount_of_none haF (accountDotSplit_before_none hsplit)
  unfold identityStep
  rw [hu, hpw, hacc, haF]
  simp only [jsExists_str, isString_str, Bool.not_true, Bool.false_eq_true,
    if_false]
  rw [hsa1, hsa2]

/-- C4: with credential validation on, an account containing an interior
dot and no explicit region constructs identically to supplying the
portion before the dot as the account and the portion after it as the
region. -/
theorem dottedAccount_equiv_explicit
    (fields : Fields) (vc q ci : JsValue) (n : Bool) (a b r : String)
    (hsplit : accountDotSplit a = some (b, r))
    (hacc : getField fields "account" = .str a)
    (_hreg : jsExists (getField fields "region") = false)
    (hvc : jsTruthy (if jsExists vc then vc else .bool true) = true) :
    connectionConfig (.obj fields) vc q ci n =
      connectionConfig
        (.obj (setField (setField fields "region" (.str r)) "account" (.str b)))
        vc q ci n := by
  unfold connectionConfig
  rw [show jsExists (JsValue.obj fields) = true from rfl,
    show isObject (JsValue.obj fields) = true from rfl,
    show jsExists (JsValue.obj (setField (setField fields "region" (.str r))
      "account" (.str b))) = true from rfl,
    show isObject (JsValue.obj (setField (setField fields "region" (.str r))
      "account" (.str b))) = true from rfl]
  simp only [Bool.not_true, Bool.false_eq_true, if_false,
    show objFields (JsValue.obj fields) = fields from rfl,
    show objFields (JsValue.obj (setField (setField fields "region" (.str r))
      "account" (.str b))) = setField (setField fields "region" (.str r))
      "account" (.str b) from rfl]
  rw [hvc, identityStep_split_eq hsplit hacc]

/-- C4 witness: `account="abc.eu-central-1"` with no explicit region
constructs identically to `account="abc", region="eu-central-1"`. -/
theorem dottedAccount_equiv_explicit_witness :
    connectionConfig
        (.obj [("username", .str "u"), ("password", .str "p"),
               ("account", .str "abc.eu-central-1")])
        .undefined .undefined .undefined false =
      connectionConfig
        (.obj (setField (setField
            [("username", .str "u"), ("password", .str "p"),
             ("account", .str "abc.eu-central-1")]
            "region" (.str "eu-central-1")) "account" (.str "abc")))
        .undefined .undefined .undefined false :=
  dottedAccount_equiv_explicit
    [("username", .str "u"), ("password", .str "p"),
     ("account", .str "abc.eu-central-1")]
    .undefined .undefined .undefined false
    "abc.eu-central-1" "abc" "eu-central-1" (by decide) rfl rfl rfl

/-- C10: with credential validation on and an explicitly supplied
accessUrl, a dotted account is still split: the stored account is the
portion before the first dot, the portion after it replaces any
caller-supplied region in the options, and the supplied url is stored
unchanged. -/
theorem dottedAccount_split_with_supplied_url
    (fields : Fields) (vc q ci : JsValue) (n : Bool) (c : ConnectionConfig)
    (a b r u : String)
    (hsplit : accountDotSplit a = some (b, r))
    (hacc : getField fields "account" = .str a)
    (hurl : getField fields "accessUrl" = .str u)
    (hvc : jsTruthy (if jsExists vc then vc else .bool true) = true)
    (hok : connectionConfig (.obj fields) vc q ci n = .ok c) :
    c.account = .str b ∧ c.accessUrl = .str u ∧
    identityStep true fields =
      .ok (setField (setField fields "region" (.str r)) "account" (.str b)) := by
  obtain ⟨fs', hid, _, _, _, _, _, hcu, hca, _⟩ := connectionConfig_ok_inv hok
  rw [hvc] at hid
  have hsa := splitAccount_of_split hacc hsplit
  have hFurl : getField
      (setField (setField fields "region" (.str r)) "account" (.str b))
      "accessUrl" = .str u := by
    rw [getField_setField_ne _ _ (by decide : "account" ≠ "accessUrl"),
      getField_setField_ne _ _ (by decide : "region" ≠ "accessUrl")]
    exact hurl
  have hD := identityStep_ok_eq_derive hid
  rw [hsa] at hD
  have hDF : deriveAccessUrl
      (setField (setField fields "region" (.str r)) "account" (.str b)) =
      .ok (setField (setField fields "region" (.str r)) "account" (.str b)) := by
    unfold deriveAccessUrl
    rw [hFurl]
    rfl
  rw [hDF] at hD
  cases hD
  exact ⟨by rw [hca, getField_setField_self], by rw [hcu, hFurl], hid⟩

/-- C10 witness: a dotted account with an explicit accessUrl stores the
split account and the supplied url. -/
theorem dottedAccount_split_with_supplied_url_witness :
    (connectionConfig
        (.obj [("username", .str "u"), ("password", .str "p"),
               ("account", .str "abc.eu-central-1"),
               ("accessUrl", .str "https://explicit.example")])
        .undefined .undefined .undefined false).map
      (fun c => (c.account, c.accessUrl)) =
      .ok (.str "abc", .str "https://explicit.example") := by
  obtain ⟨c, hc⟩ : ∃ c, connectionConfig
      (.obj [("username", .str "u"), ("password", .str "p"),
             ("account", .str "abc.eu-central-1"),
             ("accessUrl", .str "https://explicit.example")])
      .undefined .undefined .undefined false = .ok c := ⟨_, rfl⟩
  obtain ⟨h1, h2, _⟩ := dottedAccount_split_with_supplied_url
    [("username", .str "u"), ("password", .str "p"),
     ("account", .str "abc.eu-central-1"),
     ("accessUrl", .str "https://explicit.example")]
    .undefined .undefined .undefined false c
    "abc.eu-central-1" "abc" "eu-central-1" "https://explicit.example"
    (by decide) rfl rfl rfl hc
  rw [hc]
  show Except.ok (c.account, c.accessUrl) = _
  rw [h1, h2]

theorem proxyStep_missing_host {fs : Fields}
    (hp : jsExists (getField fs "proxyPort") = true)
    (hh : jsExists (getField fs "proxyHost") = false) :
    proxyStep fs true =
      .error (.argError .ERR_CONN_CREATE_MISSING_PROXY_HOST) := by
  unfold proxyStep
  rw [hh, hp]
  rfl

theorem proxyStep_missing_port {fs : Fields} {s : String}
    (hh : getField fs "proxyHost" = .str s)
    (hp : jsExists (getField fs "proxyPort") = false) :
    proxyStep fs true =
      .error (.argError .ERR_CONN_CREATE_MISSING_PROXY_PORT) := by
  unfold proxyStep
  rw [hh, hp]
  rfl

theorem proxyStep_invalid_host {fs : Fields}
    (hh : jsExists (getField fs "proxyHost") = true)
    (hs : isString (getField fs "proxyHost") = false) :
    proxyStep fs true =
      .error (.argError .ERR_CONN_CREATE_INVALID_PROXY_HOST) := by
  unfold proxyStep
  rw [hh, hs]
  rfl

theorem proxyStep_invalid_port {fs : Fields} {s : String}
    (hh : getField fs "proxyHost" = .str s)
    (hp : jsExists (getField fs "proxyPort") = true)
    (hn : isNumber (getField fs "proxyPort") = false) :
    proxyStep fs true =
      .error (.argError .ERR_CONN_CREATE_INVALID_PROXY_PORT) := by
  unfold proxyStep
  rw [hh, hp, hn]
  rfl

/-- C5: in a node (server-capable) context, supplying exactly one proxy
field fails with the missing-field error naming the absent one (an
absent host is reported first; a supplied but wrong-typed field fails
naming that field); outside node, proxy fields cause no error, no proxy
settings are assembled, and `getProxy()` is absent. -/
theorem proxyValidation
    (fields fs' : Fields) (vc q ci : JsValue)
    (hid : identityStep (jsTruthy (if jsExists vc then vc else .bool true))
      fields = .ok fs')
    (hst : isString (getField fs' "accessUrl") = true) :
    ((jsExists (getField fields "proxyPort") = true →
      jsExists (getField fields "proxyHost") = false →
      connectionConfig (.obj fields) vc q ci true =
        .error (.argError .ERR_CONN_CREATE_MISSING_PROXY_HOST)) ∧
     (∀ s, getField fields "proxyHost" = .str s →
      jsExists (getField fields "proxyPort") = false →
      connectionConfig (.obj fields) vc q ci true =
        .error (.argError .ERR_CONN_CREATE_MISSING_PROXY_PORT)) ∧
     (jsExists (getField fields "proxyHost") = true →
      isString (getField fields "proxyHost") = false →
      connectionConfig (.obj fields) vc q ci true =
        .error (.argError .ERR_CONN_CREATE_INVALID_PROXY_HOST)) ∧
     (∀ s, getField fields "proxyHost" = .str s →
      jsExists (getField fields "proxyPort") = true →
      isNumber (getField fields "proxyPort") = false →
      connectionConfig (.obj fields) vc q ci true =
        .error (.argError .ERR_CONN_CREATE_INVALID_PROXY_PORT))) ∧
    (proxyStep fields false = .ok none ∧
     ∀ c, connectionConfig (.obj fields) vc q ci false = .ok c →
       c.getProxy = none) := by
  have hph : getField fs' "proxyHost" = getField fields "proxyHost" := by
    unfold getField
    rw [identityStep_ok_preserves (by decide) (by decide) (by decide) hid]
  have hpp : getField fs' "proxyPort" = getField fields "proxyPort" := by
    unfold getField
    rw [identityStep_ok_preserves (by decide) (by decide) (by decide) hid]
  refine ⟨⟨?_, ?_, ?_, ?_⟩, rfl, ?_⟩
  · intro h1 h2
    exact connectionConfig_proxy_error hid hst
      (proxyStep_missing_host (by rw [hpp]; exact h1) (by rw [hph]; exact h2))
  · intro s hs h2
    exact connectionConfig_proxy_error hid hst
      (proxyStep_missing_port (by rw [hph]; exact hs) (by rw [hpp]; exact h2))
  · intro h1 h2
    exact connectionConfig_proxy_error hid hst
      (proxyStep_invalid_host (by rw [hph]; exact h1) (by rw [hph]; exact h2))
  · intro s hs h2 h3
    exact connectionConfig_proxy_error hid hst
      (proxyStep_invalid_port (by rw [hph]; exact hs) (by rw [hpp]; exact h2)
        (by rw [hpp]; exact h3))
  · intro c hok
    obtain ⟨fs'', _, _, _, hpr, _, _, _, _⟩ := connectionConfig_ok_inv hok
    have h0 : proxyStep fs'' false = .ok none := rfl
    rw [h0] at hpr
    exact (Except.ok.inj hpr).symm

/-- C5 witness: `proxyHost` alone in a node context fails with the
missing-proxy-port error; the same input outside node succeeds with no
proxy. -/
theorem proxyValidation_witness :
    connectionConfig
      (.obj [("accessUrl", .str "https://x"), ("proxyHost", .str "h")])
      (.bool false) .undefined .undefined true =
      .error (.argError .ERR_CONN_CREATE_MISSING_PROXY_PORT) :=
  ((proxyValidation
    [("accessUrl", .str "https://x"), ("proxyHost", .str "h")]
    [("accessUrl", .str "https://x"), ("proxyHost", .str "h")]
    (.bool false) .undefined .undefined rfl rfl).1.2.1) "h" rfl rfl
